import Mathlib

/-!
Shallow embedding of the `HoverExample` component from
`src/src/App.tsx` (kenneth-lange/tsx-drag-and-drop).

The component owns one boolean piece of state (`dragOver`), a platform
transfer channel (`event.dataTransfer`, a key/value store with
`setData`/`getData` where `getData` of an absent key yields the empty
string), and a diagnostic log (`console.log`).  Five event callbacks
act on this state:

* `handleDragOverStart = () => setDragOver(true)`
* `handleDragOverEnd   = () => setDragOver(false)`
* `handleDragStart (e) = e.dataTransfer.setData('text', e.currentTarget.id)`
* `enableDropping  (e) = e.preventDefault()`
* `handleDrop      (e) = { const id = e.dataTransfer.getData('text');
                           console.log(`...id: ${id}`); setDragOver(false) }`

We model the component state together with the drag session's transfer
channel and the console log as one `World`, and `preventDefault` as a
flag on the event value itself (it is event-scoped, not component
state).
-/

namespace DragDrop

/-- The platform transfer channel (`DataTransfer`): a key/value store
keyed by data kind. -/
structure DataTransfer where
  store : List (String × String)
deriving DecidableEq, Repr

/-- `dataTransfer.setData(format, value)`: store `value` under `format`,
replacing any previous value for that format. -/
def DataTransfer.setData (dt : DataTransfer) (format value : String) : DataTransfer :=
  ⟨(format, value) :: dt.store.filter (fun p => p.1 ≠ format)⟩

/-- `dataTransfer.getData(format)`: the stored value, or the empty
string when no value is stored under `format` (DOM semantics; the code
never checks for absence). -/
def DataTransfer.getData (dt : DataTransfer) (format : String) : String :=
  match dt.store.find? (fun p => p.1 == format) with
  | some p => p.2
  | none => ""

/-- The observable state of the `HoverExample` panel during a drag
session: the hover flag (`dragOver` React state), the session's
transfer channel, and the console log. -/
structure World where
  dragOver : Bool
  transfer : DataTransfer
  log : List String
deriving DecidableEq, Repr

/-- The panel on mount: `React.useState(false)`, empty transfer
channel, nothing logged. -/
def initialWorld : World :=
  ⟨false, ⟨[]⟩, []⟩

/-- `handleDragOverStart = () => setDragOver(true)` (onDragEnter). -/
def handleDragOverStart (w : World) : World :=
  { w with dragOver := true }

/-- `handleDragOverEnd = () => setDragOver(false)` (onDragLeave). -/
def handleDragOverEnd (w : World) : World :=
  { w with dragOver := false }

/-- `handleDragStart`: store the initiating element's own identifier
(`event.currentTarget.id`) in the transfer channel under the
plain-text kind `'text'`.  No other effect. -/
def handleDragStart (w : World) (currentTargetId : String) : World :=
  { w with transfer := w.transfer.setData "text" currentTargetId }

/-- A drag-over event value, insofar as the code touches it:
`preventDefault()` sets its `defaultPrevented` flag. -/
structure DragOverEvent where
  defaultPrevented : Bool
deriving DecidableEq, Repr

/-- `enableDropping (event) = event.preventDefault()` (onDragOver):
the component state is untouched; the event's default is suppressed. -/
def enableDropping (w : World) (e : DragOverEvent) : World × DragOverEvent :=
  (w, { e with defaultPrevented := true })

/-- The literal console message written by `handleDrop`. -/
def dropMessage (id : String) : String :=
  "Somebody dropped an element with id: " ++ id

/-- `handleDrop`: read the identifier from the transfer channel, log
the message, reset the hover flag to false. -/
def handleDrop (w : World) : World :=
  let id := w.transfer.getData "text"
  { w with log := w.log ++ [dropMessage id], dragOver := false }

/-- The platform drag events the panel subscribes to. -/
inductive Event where
  | dragStart (sourceId : String)
  | dragEnter
  | dragLeave
  | dragOver
  | drop
deriving DecidableEq, Repr

/-- Dispatch one platform event to the panel's callbacks.  A drag-over
event leaves the component state unchanged (`enableDropping` only acts
on the event value). -/
def stepWorld (w : World) : Event → World
  | .dragStart sourceId => handleDragStart w sourceId
  | .dragEnter => handleDragOverStart w
  | .dragLeave => handleDragOverEnd w
  | .dragOver => (enableDropping w ⟨false⟩).1
  | .drop => handleDrop w

/-- Run a sequence of platform events from a starting state. -/
def runWorld (w : World) : List Event → World
  | [] => w
  | e :: es => runWorld (stepWorld w e) es

/-- The inline style of the drop zone, as far as the code sets it:
`dragOver ? \x7bfontWeight: 'bold', background: 'red'\x7d : \x7b\x7d`. -/
structure Style where
  fontWeight : Option String
  background : Option String
deriving DecidableEq, Repr

/-- The drop zone's rendered style as a function of the component
state (`style={ dragOver ? ... : ... }`). -/
def dropZoneStyle (w : World) : Style :=
  if w.dragOver then ⟨some "bold", some "red"⟩ else ⟨none, none⟩

/-- An enter-or-leave event (the sub-alphabet of claim C1). -/
inductive HoverEvent where
  | enter
  | leave
deriving DecidableEq, Repr

/-- View a hover event as a platform event. -/
def HoverEvent.toEvent : HoverEvent → Event
  | .enter => .dragEnter
  | .leave => .dragLeave

end DragDrop

namespace DragDrop

/-- Run a pure enter/leave sequence (claim C1's event alphabet). -/
def runHover (w : World) (evs : List HoverEvent) : World :=
  runWorld w (evs.map HoverEvent.toEvent)

theorem runWorld_append (w : World) (l1 l2 : List Event) :
    runWorld w (l1 ++ l2) = runWorld (runWorld w l1) l2 := by
  induction l1 generalizing w with
  | nil => rfl
  | cons e es ih => simp [runWorld, ih]

theorem runHover_cons (w : World) (e : HoverEvent) (es : List HoverEvent) :
    runHover w (e :: es) = runHover (stepWorld w e.toEvent) es := rfl

/-- Enter/leave/over events never touch the transfer channel or the log. -/
theorem runWorld_hoverish_frame (w : World) (mid : List Event)
    (h : ∀ e ∈ mid, e = Event.dragEnter ∨ e = Event.dragLeave ∨ e = Event.dragOver) :
    (runWorld w mid).transfer = w.transfer ∧ (runWorld w mid).log = w.log := by
  induction mid generalizing w with
  | nil => exact ⟨rfl, rfl⟩
  | cons e es ih =>
    have he := h e (List.mem_cons_self e es)
    have hes : ∀ x ∈ es, x = Event.dragEnter ∨ x = Event.dragLeave ∨ x = Event.dragOver :=
      fun x hx => h x (List.mem_cons_of_mem e hx)
    rcases he with he | he | he <;> subst he <;>
      simpa [runWorld, stepWorld, handleDragOverStart, handleDragOverEnd, enableDropping]
        using ih (w := _) hes

end DragDrop

namespace DragDrop

/-- Claim C1: for every nonempty sequence of drag-enter and drag-leave
events on the drop target with no intervening drop, the hover flag is
true iff the most recent event was a drag-enter — no counting of
nested enter/leave pairs. -/
theorem hover_flag_iff_last_enter (w : World) (evs : List HoverEvent) (h : evs ≠ []) :
    (runHover w evs).dragOver = true ↔ evs.getLast h = HoverEvent.enter := by
  induction evs generalizing w with
  | nil => exact absurd rfl h
  | cons e es ih =>
    cases es with
    | nil =>
      cases e <;>
        simp [runHover, runWorld, stepWorld, HoverEvent.toEvent,
          handleDragOverStart, handleDragOverEnd, List.getLast]
    | cons e2 es2 =>
      rw [runHover_cons]
      rw [List.getLast_cons (by simp)]
      exact ih (stepWorld w e.toEvent) (by simp)

/-- Witness for C1 at the concrete sequence [enter, leave, enter]. -/
theorem hover_flag_iff_last_enter_witness :
    (runHover initialWorld [HoverEvent.enter, HoverEvent.leave, HoverEvent.enter]).dragOver = true
      ↔ List.getLast [HoverEvent.enter, HoverEvent.leave, HoverEvent.enter] (by simp)
          = HoverEvent.enter :=
  hover_flag_iff_last_enter initialWorld
    [HoverEvent.enter, HoverEvent.leave, HoverEvent.enter] (by simp)

/-- Claim C2: a drop unconditionally resets the hover flag to false,
whatever its prior value. -/
theorem drop_resets_hover_flag (w : World) :
    (handleDrop w).dragOver = false := rfl

theorem drop_after_start_log (sourceId : String) (mid : List Event)
    (h : ∀ e ∈ mid, e = Event.dragEnter ∨ e = Event.dragLeave ∨ e = Event.dragOver) :
    (runWorld initialWorld (Event.dragStart sourceId :: (mid ++ [Event.drop]))).log
      = [dropMessage sourceId] := by
  have hrw : runWorld initialWorld (Event.dragStart sourceId :: (mid ++ [Event.drop]))
      = runWorld (runWorld (handleDragStart initialWorld sourceId) mid) [Event.drop] := by
    show runWorld (stepWorld initialWorld (Event.dragStart sourceId)) (mid ++ [Event.drop]) = _
    rw [runWorld_append]
    rfl
  obtain ⟨ht, hl⟩ := runWorld_hoverish_frame (handleDragStart initialWorld sourceId) mid h
  rw [hrw]
  show (handleDrop (runWorld (handleDragStart initialWorld sourceId) mid)).log = _
  simp only [handleDrop, ht, hl]
  simp [handleDragStart, initialWorld, DataTransfer.setData, DataTransfer.getData,
    dropMessage, List.find?]

/-- Claim C3: a session that starts with a drag-start on "d1" (resp.
"d2"), continues with any enter/leave/over events, and ends with a
drop, logs exactly the one line with that identifier. -/
theorem drop_output_exact (mid : List Event)
    (h : ∀ e ∈ mid, e = Event.dragEnter ∨ e = Event.dragLeave ∨ e = Event.dragOver) :
    (runWorld initialWorld (Event.dragStart "d1" :: (mid ++ [Event.drop]))).log
        = ["Somebody dropped an element with id: d1"]
      ∧ (runWorld initialWorld (Event.dragStart "d2" :: (mid ++ [Event.drop]))).log
        = ["Somebody dropped an element with id: d2"] :=
  ⟨drop_after_start_log "d1" mid h, drop_after_start_log "d2" mid h⟩

/-- Witness for C3 with a concrete hover interlude. -/
theorem drop_output_exact_witness :
    (runWorld initialWorld
        (Event.dragStart "d1" :: ([Event.dragEnter, Event.dragOver] ++ [Event.drop]))).log
        = ["Somebody dropped an element with id: d1"]
      ∧ (runWorld initialWorld
        (Event.dragStart "d2" :: ([Event.dragEnter, Event.dragOver] ++ [Event.drop]))).log
        = ["Somebody dropped an element with id: d2"] :=
  drop_output_exact [Event.dragEnter, Event.dragOver] (by simp)

/-- Claim C4: `enableDropping` suppresses the platform default on every
drag-over event, unconditionally. -/
theorem enableDropping_prevents_default (w : World) (e : DragOverEvent) :
    ((enableDropping w e).2).defaultPrevented = true := rfl

/-- Claim C5: `handleDragStart` stores the initiating element's own
identifier under the plain-text kind "text" and has no other effect:
the hover flag and the log are untouched. -/
theorem dragStart_stores_id (w : World) (sourceId : String) :
    (handleDragStart w sourceId).transfer = w.transfer.setData "text" sourceId
      ∧ ((handleDragStart w sourceId).transfer).getData "text" = sourceId
      ∧ (handleDragStart w sourceId).dragOver = w.dragOver
      ∧ (handleDragStart w sourceId).log = w.log := by
  refine ⟨rfl, ?_, rfl, rfl⟩
  simp [handleDragStart, DataTransfer.setData, DataTransfer.getData, List.find?]

/-- Claim C6: the drop target is a two-state machine over the hover
flag: false on mount, drag-enter makes it true, drag-leave and drop
make it false, no event yields a third state, and from any state every
state is reachable in one event (the machine cycles). -/
theorem hover_two_state_machine :
    initialWorld.dragOver = false
      ∧ (∀ w : World, (stepWorld w Event.dragEnter).dragOver = true)
      ∧ (∀ w : World, (stepWorld w Event.dragLeave).dragOver = false)
      ∧ (∀ w : World, (stepWorld w Event.drop).dragOver = false)
      ∧ (∀ (w : World) (e : Event),
          (stepWorld w e).dragOver = true ∨ (stepWorld w e).dragOver = false)
      ∧ (∀ (w : World) (b : Bool), ∃ e : Event, (stepWorld w e).dragOver = b) := by
  refine ⟨rfl, fun w => rfl, fun w => rfl, fun w => rfl, ?_, ?_⟩
  · intro w e
    cases hb : (stepWorld w e).dragOver
    · exact Or.inr rfl
    · exact Or.inl rfl
  · intro w b
    cases b
    · exact ⟨Event.dragLeave, rfl⟩
    · exact ⟨Event.dragEnter, rfl⟩

/-- Claim C7: the enter and leave handlers are idempotent: when the
flag already has the target value the state is unchanged, and applying
either handler twice equals applying it once. -/
theorem hover_handlers_idempotent :
    (∀ w : World, w.dragOver = true → handleDragOverStart w = w)
      ∧ (∀ w : World, w.dragOver = false → handleDragOverEnd w = w)
      ∧ (∀ w : World, handleDragOverStart (handleDragOverStart w) = handleDragOverStart w)
      ∧ (∀ w : World, handleDragOverEnd (handleDragOverEnd w) = handleDragOverEnd w) := by
  refine ⟨?_, ?_, fun w => rfl, fun w => rfl⟩
  · intro w hw
    cases w
    simp_all [handleDragOverStart]
  · intro w hw
    cases w
    simp_all [handleDragOverEnd]

/-- Witness for C7 at concrete states. -/
theorem hover_handlers_idempotent_witness :
    handleDragOverEnd initialWorld = initialWorld
      ∧ handleDragOverStart (handleDragOverStart initialWorld)
          = handleDragOverStart initialWorld :=
  ⟨hover_handlers_idempotent.2.1 initialWorld rfl,
   hover_handlers_idempotent.2.2.1 initialWorld⟩

/-- Claim C8: the drop zone's style is a pure function of the hover
flag; flag true renders bold on a highlighted background, flag false
renders the default empty style, and the two differ. -/
theorem style_pure_function_of_flag :
    (∀ w w' : World, w.dragOver = w'.dragOver → dropZoneStyle w = dropZoneStyle w')
      ∧ (∀ w : World, w.dragOver = true →
          dropZoneStyle w = ⟨some "bold", some "red"⟩)
      ∧ (∀ w : World, w.dragOver = false → dropZoneStyle w = ⟨none, none⟩)
      ∧ dropZoneStyle (handleDragOverStart initialWorld) ≠ dropZoneStyle initialWorld := by
  refine ⟨?_, ?_, ?_, by simp [dropZoneStyle, handleDragOverStart, initialWorld]⟩
  · intro w w' hww
    simp [dropZoneStyle, hww]
  · intro w hw
    simp [dropZoneStyle, hw]
  · intro w hw
    simp [dropZoneStyle, hw]

/-- Witness for C8 at concrete states. -/
theorem style_pure_function_of_flag_witness :
    dropZoneStyle (handleDragOverStart initialWorld) = ⟨some "bold", some "red"⟩
      ∧ dropZoneStyle initialWorld = ⟨none, none⟩ :=
  ⟨style_pure_function_of_flag.2.1 (handleDragOverStart initialWorld) rfl,
   style_pure_function_of_flag.2.2.1 initialWorld rfl⟩

/-- Claim C9: when the transfer channel holds nothing under "text",
the read yields the empty string, `handleDrop` completes normally,
logs the line with an empty identifier, and still resets the flag. -/
theorem drop_absent_value_no_failure (w : World)
    (h : w.transfer.store.find? (fun p => p.1 == "text") = none) :
    w.transfer.getData "text" = ""
      ∧ (handleDrop w).log = w.log ++ ["Somebody dropped an element with id: "]
      ∧ (handleDrop w).dragOver = false := by
  have hget : w.transfer.getData "text" = "" := by
    simp [DataTransfer.getData, h]
  exact ⟨hget, by simp [handleDrop, hget, dropMessage], rfl⟩

/-- Witness for C9 at the empty transfer channel. -/
theorem drop_absent_value_no_failure_witness :
    initialWorld.transfer.getData "text" = ""
      ∧ (handleDrop initialWorld).log
          = initialWorld.log ++ ["Somebody dropped an element with id: "]
      ∧ (handleDrop initialWorld).dragOver = false :=
  drop_absent_value_no_failure initialWorld rfl

/-- Claim C10: `handleDragStart` and `enableDropping` never write the
hover flag — drag-start and drag-over events leave it unchanged (and
`enableDropping` leaves the whole component state unchanged). -/
theorem dragStart_dragOver_frame (w : World) (sourceId : String) (e : DragOverEvent) :
    (handleDragStart w sourceId).dragOver = w.dragOver
      ∧ (enableDropping w e).1 = w
      ∧ (stepWorld w (Event.dragStart sourceId)).dragOver = w.dragOver
      ∧ (stepWorld w Event.dragOver).dragOver = w.dragOver :=
  ⟨rfl, rfl, rfl, rfl⟩

end DragDrop
